import Mathlib

/-!
Shallow embedding of the LuigiNLP resolution engine (luiginlp/engine.py).

Strings are modelled by Lean `String` (a wrapper around `List Char`, matching
Python's per-character operations).  Python dictionaries become association
lists that keep insertion order (as Python dicts do).  The filesystem is a
finite list of existing paths; `os.rename` removes the source path and appends
the destination.  Python exceptions become an `Except` error monad.
-/

namespace LuigiNLP

/-- The exception classes appearing in engine.py: the LuigiNLPException
subclasses declared at lines 34-50, plus the builtin exceptions the module
raises (`FileNotFoundError` at line 99, `AttributeError` at line 92,
`TypeError`, `IndexError`). `missingInput` and `emptyDirectory` correspond to
the declared classes `MissingInput` and `EmptyDirectory`. -/
inductive PyErr where
  | invalidInput (msg : String)
  | missingInput (msg : String)
  | emptyDirectory (msg : String)
  | autoSetupError (msg : String)
  | schedulingError (msg : String)
  | fileNotFound (msg : String)
  | attributeError (msg : String)
  | typeError (msg : String)
  | indexError (msg : String)
deriving DecidableEq

/-- Python `s[:n]` (for n ≥ 0). -/
def pyTake (n : Nat) (s : String) : String := String.mk (s.data.take n)

/-- Python `s[n:]` (for n ≥ 0). -/
def pyDrop (n : Nat) (s : String) : String := String.mk (s.data.drop n)

/-- Python `s[:-k]` for k ≥ 1: drop the last k characters ("" if k ≥ len(s)). -/
def pyDropRight (s : String) (k : Nat) : String :=
  String.mk (s.data.take (s.data.length - k))

/-- Python `s.endswith(suffix)`. -/
def pyEndsWith (s suffix : String) : Bool := suffix.data.isSuffixOf s.data

/-- `extension[1:] if extension[0] == '.' else extension` (engine.py line 94),
for a nonempty extension. -/
def stripDot (ext : String) : String :=
  match ext.data with
  | '.' :: cs => String.mk cs
  | _ => ext

/-- Python dict lookup on an insertion-ordered association list. -/
def dictGet {α : Type} (k : String) : List (String × α) → Option α
  | [] => none
  | (k', v) :: rest => if k' == k then some v else dictGet k rest

/-- Python dict assignment `d[k] = v`: replace in place if the key is present
(keeping its position), otherwise append. -/
def dictSet {α : Type} (k : String) (v : α) : List (String × α) → List (String × α)
  | [] => [(k, v)]
  | (k', v') :: rest => if k' == k then (k', v) :: rest else (k', v') :: dictSet k v rest

/-- The result state of `InputFormat.__init__` (engine.py lines 81-103):
`format_id`, `directory`, the `valid` flag, and — when a match was found — the
computed `basename` and (dot-stripped) `extension`. Python leaves `basename`
and `extension` unset when no extension matched; we store "" there, and the
code never reads them in that case. -/
structure InputFormatR where
  format_id : String
  directory : Bool
  valid : Bool
  basename : String
  extension : String
deriving DecidableEq

/-- The `for extension in extensions:` loop of `InputFormat.__init__`
(engine.py lines 93-101).  `fs` is the set of existing paths
(`os.path.exists`), `path` the value of the input parameter.  An empty
extension string raises IndexError at `extension[0]` in Python. -/
def inputFormatLoop (fs : String → Bool) (path : String) (format_id : String)
    (directory force : Bool) : List String → Except PyErr InputFormatR
  | [] => .ok ⟨format_id, directory, false, "", ""⟩
  | ext :: rest =>
    if ext == "" then .error (.indexError "string index out of range")
    else
      let e := stripDot ext
      if pyEndsWith path ("." ++ e) || force then
        let basename := pyDropRight path (e.length + 1)
        if fs (basename ++ "." ++ e) then
          .ok ⟨format_id, directory, true, basename, e⟩
        else
          .error (.fileNotFound ("Specified input file for format " ++ format_id ++
            " does not exist: " ++ basename ++ "." ++ e))
      else inputFormatLoop fs path format_id directory force rest

/-- `InputFormat.__init__` (engine.py lines 81-103): `self.valid = False`,
then the extension loop; a single string extension is the singleton list. -/
def inputFormatInit (fs : String → Bool) (path : String) (format_id : String)
    (extensions : List String) (directory force : Bool) : Except PyErr InputFormatR :=
  inputFormatLoop fs path format_id directory force extensions

/-- Characterisation used in the statements: the path's suffix equals the
declared extension, compared case-sensitively after stripping a leading dot
(engine.py lines 94-95). -/
def extMatches (path ext : String) : Bool := pyEndsWith path ("." ++ stripDot ext)

/-- A value of the `input_feeds` dict in `WorkflowComponent.setup_input`
(engine.py lines 213, 222, 257-263): a single output-slot handle, or a list of
handles after fan-in promotion.  Slot handles are modelled as strings. -/
inductive Feed where
  | one : String → Feed
  | many : List String → Feed
deriving DecidableEq

/-- The `input_feeds` dict: format-id to producer(s), insertion-ordered. -/
abbrev FeedMap := List (String × Feed)

/-- The relevant per-instance state of a `WorkflowComponent`
(engine.py lines 119-125): the class name, the `startcomponent` and
`inputslot` parameters ("" is Python-falsy, the default), and the optional
`inputfile` attribute used for the first trace entry (lines 208-209). -/
structure CompCtx where
  className : String
  startcomponent : String
  inputslot : String
  inputfile : Option String
deriving DecidableEq

/-- Trace entry of engine.py line 218. -/
def skipMsg (c : CompCtx) (format_id : String) : String :=
  "startcomponent does not match " ++ c.className ++ ", skipping InputFormat " ++ format_id

/-- Trace entry of engine.py line 221. -/
def matchMsg (format_id : String) : String :=
  "InputFormat " ++ format_id ++ " matches!"

/-- Trace entry of engine.py line 226. -/
def noMatchMsg (c : CompCtx) (format_id : String) : String :=
  "InputFormat " ++ format_id ++ " does not match (inputslot=" ++ c.inputslot ++ ")"

/-- Trace entry of engine.py line 243. -/
def triedMsg (name msg : String) : String :=
  "(Tried workflow " ++ name ++ " in accept chain, does not handle provided input: " ++ msg ++ ")"

/-- The message of the final `InvalidInput` (engine.py line 272). -/
def invalidMsg (inputlog : List String) : String :=
  "Unable to find an entry point for supplied input: " ++ String.intercalate "; " inputlog

/-- The initial `inputlog` (engine.py lines 207-209). -/
def initLog (c : CompCtx) : List String :=
  match c.inputfile with
  | some f => ["inputfile=" ++ f]
  | none => []

instance {ε α : Type} [DecidableEq ε] [DecidableEq α] : DecidableEq (Except ε α) := fun a b =>
  match a, b with
  | .error e, .error f => decidable_of_iff (e = f) (by simp)
  | .ok x, .ok y => decidable_of_iff (x = y) (by simp)
  | .error _, .ok _ => isFalse (fun hc => Except.noConfusion hc)
  | .ok _, .error _ => isFalse (fun hc => Except.noConfusion hc)

/-- One element of an acceptance group, as seen by the loop body of
`setup_input` (engine.py lines 215-236):

* `inputFormat`: an already-constructed `InputFormat` with its `format_id`
  and `valid` flag; `slot` is the handle `input.task(workflow).out_default` of
  the `InputTask` it would produce (line 222).
* `inputComponent`: an `InputComponent` (or a bare `WorkflowComponent`
  subclass, which line 233 wraps into one) with the class name and the outcome
  of `swf.setup_input(workflow)` followed by `swf.setup(workflow, ...)`
  (lines 239-240): either a raised exception, or the returned tasks, each task
  given as its `dir()`-ordered list of (attribute name, slot handle) pairs.

Elements of any other type raise TypeError (line 236) and are excluded here
by typing. -/
inductive AcceptItem where
  | inputFormat (format_id : String) (valid : Bool) (slot : String)
  | inputComponent (name : String) (result : Except PyErr (List (List (String × String))))
deriving DecidableEq

/-- Merging one attribute of a returned task into `input_feeds`
(engine.py lines 254-263): attributes named `out_*` are slots; the first
producer for a format-id is stored as a scalar, a second one promotes the
binding to a list. -/
def mergeOutAttr (feeds : FeedMap) (attr : String × String) : FeedMap :=
  if pyTake 4 attr.1 == "out_" then
    let format_id := pyDrop 4 attr.1
    match dictGet format_id feeds with
    | some (Feed.many ss) => dictSet format_id (Feed.many (ss ++ [attr.2])) feeds
    | some (Feed.one s) => dictSet format_id (Feed.many [s, attr.2]) feeds
    | none => dictSet format_id (Feed.one attr.2) feeds
  else feeds

/-- Merging all `out_*` attributes of one task (engine.py lines 254-263). -/
def mergeTask (feeds : FeedMap) (attrs : List (String × String)) : FeedMap :=
  attrs.foldl mergeOutAttr feeds

/-- Merging all returned tasks (engine.py lines 251-263). -/
def mergeTasks (feeds : FeedMap) (tasks : List (List (String × String))) : FeedMap :=
  tasks.foldl mergeTask feeds

/-- One iteration of the `for input in inputtuple:` loop of `setup_input`
(engine.py lines 215-263), returning the updated feed, the trace entries
appended to `inputlog`, and whether the iteration executed `break` (aborting
the rest of the group). Only `InvalidInput` from the recursive resolution is
caught (line 242); any other exception propagates. -/
def evalItem (c : CompCtx) (feeds : FeedMap) :
    AcceptItem → Except PyErr (FeedMap × List String × Bool)
  | .inputFormat format_id valid slot =>
    if (c.startcomponent != "") && (c.startcomponent != c.className) then
      .ok (feeds, [skipMsg c format_id], true)
    else if valid && ((c.inputslot == "") || (c.inputslot == format_id)) then
      .ok (dictSet format_id (Feed.one slot) feeds, [matchMsg format_id], false)
    else
      .ok (feeds, [noMatchMsg c format_id], true)
  | .inputComponent name result =>
    match result with
    | .error (PyErr.invalidInput m) => .ok (feeds, [triedMsg name m], true)
    | .error e => .error e
    | .ok tasks => .ok (mergeTasks feeds tasks, [], false)

/-- The inner `for input in inputtuple:` loop of `setup_input`
(engine.py lines 215-263): items are processed in order; a `break` from an
item stops the loop, keeping the feed accumulated so far. -/
def evalGroup (c : CompCtx) : List AcceptItem → FeedMap →
    Except PyErr (FeedMap × List String × Bool)
  | [], feeds => .ok (feeds, [], false)
  | item :: rest, feeds =>
    match evalItem c feeds item with
    | .error e => .error e
    | .ok (f, entries, true) => .ok (f, entries, true)
    | .ok (f, entries, false) =>
      match evalGroup c rest f with
      | .error e => .error e
      | .ok (f', entries', aborted) => .ok (f', entries ++ entries', aborted)

/-- The outer `for inputtuple in itertools.chain(...):` loop of `setup_input`
(engine.py lines 212-272): each group starts from a fresh empty dict
(line 213); after a group has been processed, a non-empty feed is returned
immediately (lines 267-269); when the groups are exhausted, `InvalidInput` is
raised with the accumulated trace (line 272). -/
def setupInputAux (c : CompCtx) : List (List AcceptItem) → List String → Except PyErr FeedMap
  | [], inputlog => .error (.invalidInput (invalidMsg inputlog))
  | g :: rest, inputlog =>
    match evalGroup c g [] with
    | .error e => .error e
    | .ok (feeds, entries, _) =>
      if feeds.length > 0 then .ok feeds
      else setupInputAux c rest (inputlog ++ entries)

/-- `WorkflowComponent.setup_input` (engine.py lines 203-272) on
already-constructed acceptance items: the ordered groups are the component's
own `accepts()` groups followed by the injected `accepted_components`
(line 212). -/
def setup_input (c : CompCtx) (own injected : List (List AcceptItem)) : Except PyErr FeedMap :=
  setupInputAux c (own ++ injected) (initLog c)

/-- A format declaration as written in a component's `accepts()`: the
arguments of the `InputFormat(...)` constructor call. -/
structure FormatSpec where
  format_id : String
  extensions : List String
  directory : Bool
  force : Bool
deriving DecidableEq

/-- A not-yet-constructed acceptance item: `accepts()` constructs all its
`InputFormat` objects when `setup_input` calls it (engine.py line 206),
before any group is examined. -/
inductive ItemSpec where
  | fmt (spec : FormatSpec) (slot : String)
  | comp (name : String) (result : Except PyErr (List (List (String × String))))
deriving DecidableEq

/-- Constructing one acceptance item: an `InputFormat(...)` call may raise
(engine.py lines 92, 99); a component reference never does at this point. -/
def buildItem (fs : String → Bool) (path : String) : ItemSpec → Except PyErr AcceptItem
  | .fmt spec slot =>
    match inputFormatInit fs path spec.format_id spec.extensions spec.directory spec.force with
    | .error e => .error e
    | .ok r => .ok (.inputFormat r.format_id r.valid slot)
  | .comp name result => .ok (.inputComponent name result)

/-- Constructing the items of one group, left to right. -/
def buildItems (fs : String → Bool) (path : String) : List ItemSpec → Except PyErr (List AcceptItem)
  | [] => .ok []
  | i :: rest =>
    match buildItem fs path i with
    | .error e => .error e
    | .ok a =>
      match buildItems fs path rest with
      | .error e => .error e
      | .ok as => .ok (a :: as)

/-- Constructing all groups, left to right. -/
def buildGroups (fs : String → Bool) (path : String) :
    List (List ItemSpec) → Except PyErr (List (List AcceptItem))
  | [] => .ok []
  | g :: rest =>
    match buildItems fs path g with
    | .error e => .error e
    | .ok g' =>
      match buildGroups fs path rest with
      | .error e => .error e
      | .ok gs => .ok (g' :: gs)

/-- `setup_input` including the evaluation of `accepts()` (engine.py
line 206): the `InputFormat` constructions happen first, and an exception
there propagates out of `setup_input` before any group is tried. -/
def setupInputFull (fs : String → Bool) (path : String) (c : CompCtx)
    (specGroups : List (List ItemSpec)) (injected : List (List AcceptItem)) :
    Except PyErr FeedMap :=
  match buildGroups fs path specGroups with
  | .error e => .error e
  | .ok own => setupInputAux c (own ++ injected) (initLog c)

/-- The parameter-transfer loop of `InputComponent.__init__`
(engine.py lines 59-63): for every parameter name declared by the child class
(`dir(self.Class)` filtered to `luigi.Parameter` attributes, in `dir()`
order), if the explicit kwargs do not already supply it and the parent
component has an attribute of that name, copy the parent's value into kwargs.
New keys are appended to the (insertion-ordered) kwargs dict. -/
def propagateParams (childParams : List String) (overrides : List (String × String))
    (parent : String → Option String) : List (String × String) :=
  childParams.foldl (fun kwargs key =>
    match dictGet key kwargs with
    | some _ => kwargs
    | none =>
      match parent key with
      | some v => dictSet key v kwargs
      | none => kwargs) overrides

/-- The per-instance state of a `Task` (engine.py lines 298-343) relevant to
the directory-marking handlers: the name-mangled attribute
`self._Task__output_dir` set by `setup_output_dir` (lines 310-312), and
`self._Task__output_dirs`, which `on_success` reads (line 328) but which no
code ever assigns.  `none` models "attribute not set" (reading it raises
AttributeError). -/
structure TaskState where
  output_dir : Option (List String)
  output_dirs : Option (List String)
deriving DecidableEq

/-- A freshly constructed task: neither attribute is set. -/
def initTask : TaskState := ⟨none, none⟩

/-- `os.rename src dst` on the filesystem modelled as the list of existing
paths. -/
def renameFS (fs : List String) (src dst : String) : List String :=
  fs.filter (fun p => !(p == src)) ++ [dst]

/-- `Task.setup_output_dir` (engine.py lines 301-312): reuse an existing
directory, or rename a leftover `d + ".failed"` back to `d`, or create `d`;
then record `d` in `self.__output_dir` (creating the attribute on first
use). -/
def setup_output_dir (t : TaskState) (fs : List String) (d : String) :
    TaskState × List String :=
  let fs' :=
    if d ∈ fs then fs
    else if (d ++ ".failed") ∈ fs then renameFS fs (d ++ ".failed") d
    else fs ++ [d]
  let t' :=
    match t.output_dir with
    | some l => { t with output_dir := some (l ++ [d]) }
    | none => { t with output_dir := some [d] }
  (t', fs')

/-- `Task.on_failure` (engine.py lines 314-322): rename every registered
output directory that still exists to `d + ".failed"`; an unset
`self.__output_dir` raises AttributeError, which is caught. -/
def on_failure (t : TaskState) (fs : List String) : List String :=
  match t.output_dir with
  | none => fs
  | some dirs =>
    dirs.foldl (fun fs d => if d ∈ fs then renameFS fs d (d ++ ".failed") else fs) fs

/-- `Task.on_success` (engine.py lines 324-338), up to the point where the
`try:` block ends.  `listdir d` models `glob.glob(os.path.join(d, '*'))`.
Reading `self.__output_dir` when unset raises AttributeError (caught); with
it set and non-empty (Python truthiness, line 326), the loop header
`for d in self.__output_dirs:` (line 328) reads the never-assigned attribute
`self.__output_dirs` and raises AttributeError, which the
`except AttributeError: pass` swallows; were that attribute a non-empty list,
the next line `os.path.exists(self.__output_dir)` (line 329) would pass a
list to `os.path.exists` and raise TypeError. -/
def on_success (_listdir : String → List String) (t : TaskState) (fs : List String) :
    Except PyErr (List String) :=
  match t.output_dir with
  | none => .ok fs
  | some dirs =>
    if dirs.isEmpty then .ok fs
    else
      match t.output_dirs with
      | none => .ok fs
      | some [] => .ok fs
      | some (_ :: _) => .error (.typeError "os.path.exists expects a path, got a list")

/-- The classes involved in claim C10: the base class `WorkflowComponent` and
two subclasses that do not themselves define an `accepted_components`
attribute unless one is recorded for them. -/
inductive CompClass where
  | wc
  | subA
  | subB
deriving DecidableEq

/-- The class-attribute state for `accepted_components` (engine.py line 125):
`wcList` is the single list object created in the `WorkflowComponent` class
body; `aOwn`/`bOwn` are the subclasses' own `accepted_components` class
attributes, `none` when the subclass does not define one (Python then
resolves the attribute on the base class).  Entries are component names. -/
structure ClassTable where
  wcList : List String
  aOwn : Option (List String)
  bOwn : Option (List String)
deriving DecidableEq

/-- Python attribute lookup for `cls.accepted_components`. -/
def lookupAccepted (tbl : ClassTable) : CompClass → List String
  | .wc => tbl.wcList
  | .subA => tbl.aOwn.getD tbl.wcList
  | .subB => tbl.bOwn.getD tbl.wcList

/-- `WorkflowComponent.accept` for one child class (engine.py lines 156-160):
`cls.accepted_components.append(ChildClass)` looks the attribute up (finding
the base class's list when `cls` has no own attribute) and mutates that very
list object in place, after a membership check. -/
def acceptOn (tbl : ClassTable) (cls : CompClass) (child : String) : ClassTable :=
  if child ∈ lookupAccepted tbl cls then tbl
  else
    match cls with
    | .wc => { tbl with wcList := tbl.wcList ++ [child] }
    | .subA =>
      match tbl.aOwn with
      | some l => { tbl with aOwn := some (l ++ [child]) }
      | none => { tbl with wcList := tbl.wcList ++ [child] }
    | .subB =>
      match tbl.bOwn with
      | some l => { tbl with bOwn := some (l ++ [child]) }
      | none => { tbl with wcList := tbl.wcList ++ [child] }

/-- The injected part of the `itertools.chain` at engine.py line 212: each
entry of `accepted_components` is a bare class, wrapped by line 214 into a
singleton group; `results` gives each referenced component's recursive
resolution outcome. -/
def injectedGroups (results : String → Except PyErr (List (List (String × String))))
    (accepted : List String) : List (List AcceptItem) :=
  accepted.map (fun n => [AcceptItem.inputComponent n (results n)])

/-- `setup_input` as run for an instance of class `cls`: the injected
alternatives come from the `accepted_components` attribute looked up on that
class. -/
def resolveClass (tbl : ClassTable) (cls : CompClass) (c : CompCtx)
    (own : List (List AcceptItem))
    (results : String → Except PyErr (List (List (String × String)))) :
    Except PyErr FeedMap :=
  setupInputAux c (own ++ injectedGroups results (lookupAccepted tbl cls)) (initLog c)

/-! ## Helper lemmas -/

theorem inputFormatLoop_noforce (fs : String → Bool) (path format_id : String)
    (dir : Bool) :
    ∀ (exts : List String) (r : InputFormatR),
      inputFormatLoop fs path format_id dir false exts = .ok r →
      (r.valid = true ↔ ∃ ext ∈ exts, extMatches path ext = true)
        ∧ (r.valid = true → fs (r.basename ++ "." ++ r.extension) = true) := by
  intro exts
  induction exts with
  | nil =>
    intro r hr
    simp only [inputFormatLoop] at hr
    cases hr
    simp
  | cons ext rest ih =>
    intro r hr
    simp only [inputFormatLoop] at hr
    by_cases hempty : ext == ""
    · simp [hempty] at hr
    · simp only [hempty, Bool.false_eq_true, if_false] at hr
      by_cases hmatch : pyEndsWith path ("." ++ stripDot ext) = true
      · simp only [hmatch, Bool.or_false, if_true] at hr
        by_cases hfs : fs (pyDropRight path ((stripDot ext).length + 1) ++ "." ++ stripDot ext) = true
        · simp only [hfs, if_true] at hr
          cases hr
          refine ⟨?_, fun _ => hfs⟩
          simp only [true_iff]
          exact ⟨ext, List.mem_cons_self ext rest, hmatch⟩
        · simp [hfs] at hr
      · simp only [hmatch, Bool.or_false, if_false] at hr
        have h := ih r hr
        refine ⟨?_, h.2⟩
        rw [h.1]
        constructor
        · rintro ⟨e, he, hm⟩
          exact ⟨e, List.mem_cons_of_mem _ he, hm⟩
        · rintro ⟨e, he, hm⟩
          rcases List.mem_cons.mp he with heq | hmem
          · subst heq
            exact absurd hm hmatch
          · exact ⟨e, hmem, hm⟩

theorem inputFormatLoop_force (fs : String → Bool) (path format_id : String)
    (dir : Bool) (e0 : String) (es : List String) (r : InputFormatR)
    (hr : inputFormatLoop fs path format_id dir true (e0 :: es) = .ok r) :
    r.valid = true ∧ r.extension = stripDot e0
      ∧ fs (r.basename ++ "." ++ r.extension) = true := by
  simp only [inputFormatLoop] at hr
  by_cases hempty : e0 == ""
  · simp [hempty] at hr
  · simp only [hempty, Bool.false_eq_true, if_false, Bool.or_true, if_true] at hr
    by_cases hfs : fs (pyDropRight path ((stripDot e0).length + 1) ++ "." ++ stripDot e0) = true
    · simp only [hfs, if_true] at hr
      cases hr
      exact ⟨rfl, rfl, hfs⟩
    · simp [hfs] at hr

/-! ## Claims -/

/-- C2: for every path `p` and format descriptor, a returned (non-raising)
match result is valid iff `p`'s suffix equals one of the accepted extensions
(case-sensitively, leading dot stripped) and the referenced artifact exists;
with `force` set, the match succeeds using the first declared extension
regardless of `p`'s suffix. -/
theorem c2_format_match (fs : String → Bool) (path format_id : String)
    (exts : List String) (dir force : Bool) (r : InputFormatR)
    (hr : inputFormatInit fs path format_id exts dir force = .ok r) :
    (force = false →
      ((r.valid = true ↔ ∃ ext ∈ exts, extMatches path ext = true)
        ∧ (r.valid = true → fs (r.basename ++ "." ++ r.extension) = true)))
    ∧ (force = true → ∀ e0 es, exts = e0 :: es →
        r.valid = true ∧ r.extension = stripDot e0
          ∧ fs (r.basename ++ "." ++ r.extension) = true) := by
  constructor
  · intro hforce
    subst hforce
    exact inputFormatLoop_noforce fs path format_id dir exts r hr
  · intro hforce e0 es hexts
    subst hforce hexts
    exact inputFormatLoop_force fs path format_id dir e0 es r hr

/-- Witness for C2 at a concrete input: `doc.txt` against extension list
`["txt"]` with the file present. -/
theorem c2_format_match_witness :
    (inputFormatInit (fun p => p == "doc.txt") "doc.txt" "txt" ["txt"] false false
        = .ok ⟨"txt", false, true, "doc", "txt"⟩)
    ∧ ((⟨"txt", false, true, "doc", "txt"⟩ : InputFormatR).valid = true
        ↔ ∃ ext ∈ ["txt"], extMatches "doc.txt" ext = true) := by
  refine ⟨rfl, ?_⟩
  exact ((c2_format_match (fun p => p == "doc.txt") "doc.txt" "txt" ["txt"] false false
    ⟨"txt", false, true, "doc", "txt"⟩ rfl).1 rfl).1

theorem buildItems_error (fs : String → Bool) (path : String) (bad : ItemSpec)
    (post2 : List ItemSpec) (e : PyErr) (hbad : buildItem fs path bad = .error e) :
    ∀ (pre2 : List ItemSpec), (∃ is, buildItems fs path pre2 = .ok is) →
      buildItems fs path (pre2 ++ bad :: post2) = .error e := by
  intro pre2
  induction pre2 with
  | nil =>
    intro _
    simp only [List.nil_append, buildItems, hbad]
  | cons i rest ih =>
    rintro ⟨is, his⟩
    simp only [buildItems] at his ⊢
    cases hi : buildItem fs path i with
    | error e' => simp [hi] at his
    | ok a =>
      simp only [hi] at his ⊢
      cases hrest : buildItems fs path rest with
      | error e' => simp [hrest] at his
      | ok as =>
        have h := ih ⟨as, hrest⟩
        simp only [List.append_eq] at h ⊢
        rw [h]

theorem buildGroups_error (fs : String → Bool) (path : String)
    (gbad : List ItemSpec) (post : List (List ItemSpec)) (e : PyErr)
    (hbad : buildItems fs path gbad = .error e) :
    ∀ (pre : List (List ItemSpec)), (∃ gs, buildGroups fs path pre = .ok gs) →
      buildGroups fs path (pre ++ gbad :: post) = .error e := by
  intro pre
  induction pre with
  | nil =>
    intro _
    simp only [List.nil_append, buildGroups, hbad]
  | cons g rest ih =>
    rintro ⟨gs, hgs⟩
    simp only [buildGroups] at hgs ⊢
    cases hg : buildItems fs path g with
    | error e' => simp [hg] at hgs
    | ok g' =>
      simp only [hg] at hgs ⊢
      cases hrest : buildGroups fs path rest with
      | error e' => simp [hrest] at hgs
      | ok gs' =>
        have h := ih ⟨gs', hrest⟩
        simp only [List.append_eq] at h ⊢
        rw [h]

/-- For a single declared extension that syntactically matches while the
referenced artifact is absent, `InputFormat.__init__` raises (engine.py
lines 98-99). -/
theorem inputFormatInit_missing (fs : String → Bool) (path format_id ext : String)
    (dir : Bool) (hne : (ext == "") = false) (hm : extMatches path ext = true)
    (hmiss : fs (pyDropRight path ((stripDot ext).length + 1) ++ "." ++ stripDot ext) = false) :
    inputFormatInit fs path format_id [ext] dir false
      = .error (.fileNotFound ("Specified input file for format " ++ format_id ++
          " does not exist: " ++
          pyDropRight path ((stripDot ext).length + 1) ++ "." ++ stripDot ext)) := by
  unfold extMatches at hm
  simp [inputFormatInit, inputFormatLoop, hne, hm, hmiss]

/-- C3 (amended): for every path whose suffix matches a declared extension of
a format descriptor but whose referenced artifact does not exist, the format
matcher fails with `FileNotFoundError` (not the declared-but-unused
`MissingInput`), a hard error distinct from a `valid = false` non-match, and
the error propagates out of `setup_input` untouched by the group
backtracking, whatever groups precede or follow. -/
theorem c3_missing_artifact (fs : String → Bool) (path : String) (c : CompCtx)
    (format_id ext slot : String) (dir : Bool)
    (pre post : List (List ItemSpec)) (pre2 post2 : List ItemSpec)
    (injected : List (List AcceptItem))
    (hne : (ext == "") = false) (hm : extMatches path ext = true)
    (hmiss : fs (pyDropRight path ((stripDot ext).length + 1) ++ "." ++ stripDot ext) = false)
    (hpre : ∃ gs, buildGroups fs path pre = .ok gs)
    (hpre2 : ∃ is, buildItems fs path pre2 = .ok is) :
    setupInputFull fs path c
        (pre ++ (pre2 ++ ItemSpec.fmt ⟨format_id, [ext], dir, false⟩ slot :: post2) :: post)
        injected
      = .error (.fileNotFound ("Specified input file for format " ++ format_id ++
          " does not exist: " ++
          pyDropRight path ((stripDot ext).length + 1) ++ "." ++ stripDot ext)) := by
  have hitem : buildItem fs path (ItemSpec.fmt ⟨format_id, [ext], dir, false⟩ slot)
      = .error (.fileNotFound ("Specified input file for format " ++ format_id ++
          " does not exist: " ++
          pyDropRight path ((stripDot ext).length + 1) ++ "." ++ stripDot ext)) := by
    simp [buildItem, inputFormatInit_missing fs path format_id ext dir hne hm hmiss]
  have hgroup := buildItems_error fs path _ post2 _ hitem pre2 hpre2
  have hgroups := buildGroups_error fs path _ post _ hgroup pre hpre
  simp [setupInputFull, hgroups]

/-- Witness for C3's amended theorem: file `doc.txt` declared with a matching
extension but absent from the filesystem; a viable later group does not get
to swallow the error. -/
theorem c3_missing_artifact_witness :
    setupInputFull (fun _ => false) "doc.txt" ⟨"Main", "", "", none⟩
        ([] ++ ([] ++ ItemSpec.fmt ⟨"txt", ["txt"], false, false⟩ "sT"
            :: []) :: [[ItemSpec.comp "Tok" (.ok [[("out_tok", "s1")]])]])
        []
      = .error (.fileNotFound "Specified input file for format txt does not exist: doc.txt") :=
  c3_missing_artifact (fun _ => false) "doc.txt" ⟨"Main", "", "", none⟩
    "txt" "txt" "sT" false [] [[ItemSpec.comp "Tok" (.ok [[("out_tok", "s1")]])]] [] [] []
    rfl rfl rfl ⟨[], rfl⟩ ⟨[], rfl⟩

/-- C3 counterexample to the claim as stated: at a concrete matching path
with the artifact absent, the matcher raises `FileNotFoundError`, not
`MissingInput`. -/
theorem c3_counterexample :
    (inputFormatInit (fun _ => false) "doc.txt" "txt" ["txt"] false false
        = .error (.fileNotFound "Specified input file for format txt does not exist: doc.txt"))
    ∧ (match inputFormatInit (fun _ => false) "doc.txt" "txt" ["txt"] false false with
        | .error (PyErr.missingInput _) => False
        | _ => True) := by
  exact ⟨rfl, trivial⟩

/-- Whether one loop iteration of `setup_input` executes `break` on this item
(engine.py lines 219, 228, 246). -/
def itemAborts (c : CompCtx) : AcceptItem → Bool
  | .inputFormat format_id valid _ =>
    ((c.startcomponent != "") && (c.startcomponent != c.className))
      || !(valid && ((c.inputslot == "") || (c.inputslot == format_id)))
  | .inputComponent _ result =>
    match result with
    | .error (PyErr.invalidInput _) => true
    | _ => false

/-- The trace entry logged by an aborting item (engine.py lines 218, 226,
243). -/
def abortEntry (c : CompCtx) : AcceptItem → String
  | .inputFormat format_id _ _ =>
    if (c.startcomponent != "") && (c.startcomponent != c.className) then skipMsg c format_id
    else noMatchMsg c format_id
  | .inputComponent name result =>
    match result with
    | .error (PyErr.invalidInput m) => triedMsg name m
    | _ => ""

theorem evalItem_abort (c : CompCtx) (f : FeedMap) (item : AcceptItem)
    (h : itemAborts c item = true) :
    evalItem c f item = .ok (f, [abortEntry c item], true) := by
  cases item with
  | inputFormat format_id valid slot =>
    simp only [itemAborts] at h
    simp only [evalItem, abortEntry]
    cases hsc : ((c.startcomponent != "") && (c.startcomponent != c.className)) with
    | true => simp [hsc]
    | false =>
      rw [hsc] at h
      simp only [Bool.false_or] at h
      have h2 : (valid && ((c.inputslot == "") || (c.inputslot == format_id))) = false := by
        cases hv : (valid && ((c.inputslot == "") || (c.inputslot == format_id)))
        · rfl
        · rw [hv] at h
          simp at h
      simp [hsc, h2]
  | inputComponent name result =>
    simp only [itemAborts] at h
    cases result with
    | ok tasks => simp at h
    | error e =>
      cases e with
      | invalidInput m => simp [evalItem, abortEntry]
      | missingInput m => simp at h
      | emptyDirectory m => simp at h
      | autoSetupError m => simp at h
      | schedulingError m => simp at h
      | fileNotFound m => simp at h
      | attributeError m => simp at h
      | typeError m => simp at h
      | indexError m => simp at h

theorem evalGroup_abort_head (c : CompCtx) (bad : AcceptItem) (post : List AcceptItem)
    (f : FeedMap) (hbad : itemAborts c bad = true) :
    evalGroup c (bad :: post) f = .ok (f, [abortEntry c bad], true) := by
  simp [evalGroup, evalItem_abort c f bad hbad]

theorem evalGroup_append_ok (c : CompCtx) (ys : List AcceptItem) :
    ∀ (xs : List AcceptItem) (f f' : FeedMap) (e : List String),
      evalGroup c xs f = .ok (f', e, false) →
      evalGroup c (xs ++ ys) f =
        match evalGroup c ys f' with
        | .error err => .error err
        | .ok (f'', e', ab) => .ok (f'', e ++ e', ab) := by
  intro xs
  induction xs with
  | nil =>
    intro f f' e h
    simp only [evalGroup] at h
    cases h
    simp only [List.nil_append]
    cases hys : evalGroup c ys f with
    | error err => simp [hys]
    | ok r =>
      obtain ⟨a, b, ab⟩ := r
      simp [hys]
  | cons x rest ih =>
    intro f f' e h
    simp only [evalGroup] at h ⊢
    cases hx : evalItem c f x with
    | error err => simp [hx] at h
    | ok ri =>
      obtain ⟨fi, ei, abi⟩ := ri
      cases abi with
      | true => simp [hx] at h
      | false =>
        simp only [hx] at h ⊢
        cases hrest : evalGroup c rest fi with
        | error err => simp [hrest] at h
        | ok r2 =>
          obtain ⟨f2, e2, ab2⟩ := r2
          rw [hrest] at h
          simp only [Except.ok.injEq, Prod.mk.injEq] at h
          obtain ⟨hf, he, hab⟩ := h
          subst hf he hab
          simp only [List.append_eq]
          rw [ih fi f2 e2 hrest]
          cases hys : evalGroup c ys f2 with
          | error err => simp [hys]
          | ok r3 =>
            obtain ⟨f3, e3, ab3⟩ := r3
            simp [hys, List.append_assoc]

theorem evalGroup_append_abort (c : CompCtx) (ys : List AcceptItem) :
    ∀ (xs : List AcceptItem) (f f' : FeedMap) (e : List String),
      evalGroup c xs f = .ok (f', e, true) →
      evalGroup c (xs ++ ys) f = .ok (f', e, true) := by
  intro xs
  induction xs with
  | nil =>
    intro f f' e h
    simp [evalGroup] at h
  | cons x rest ih =>
    intro f f' e h
    simp only [evalGroup] at h ⊢
    cases hx : evalItem c f x with
    | error err => simp [hx] at h
    | ok ri =>
      obtain ⟨fi, ei, abi⟩ := ri
      cases abi with
      | true =>
        simp only [hx] at h ⊢
        exact h
      | false =>
        simp only [hx] at h ⊢
        cases hrest : evalGroup c rest fi with
        | error err => simp [hrest] at h
        | ok r2 =>
          obtain ⟨f2, e2, ab2⟩ := r2
          rw [hrest] at h
          simp only [Except.ok.injEq, Prod.mk.injEq] at h
          obtain ⟨hf, he, hab⟩ := h
          subst hf he hab
          simp only [List.append_eq]
          rw [ih fi f2 e2 hrest]

/-- The trace entries a group's run appends to `inputlog`. -/
def groupEntriesOf (c : CompCtx) (g : List AcceptItem) : List String :=
  match evalGroup c g [] with
  | .ok r => r.2.1
  | .error _ => []

theorem setupInputAux_skip (c : CompCtx) :
    ∀ (gs1 : List (List AcceptItem)),
      (∀ g' ∈ gs1, ∃ e a, evalGroup c g' [] = .ok ([], e, a)) →
      ∀ (gs' : List (List AcceptItem)) (inputlog : List String),
        ∃ log', setupInputAux c (gs1 ++ gs') inputlog = setupInputAux c gs' log' := by
  intro gs1
  induction gs1 with
  | nil =>
    intro _ gs' inputlog
    exact ⟨inputlog, rfl⟩
  | cons g' rest ih =>
    intro hpre gs' inputlog
    obtain ⟨e, a, hgr⟩ := hpre g' (List.mem_cons_self g' rest)
    obtain ⟨log', hlog⟩ := ih (fun g'' hm => hpre g'' (List.mem_cons_of_mem _ hm)) gs' (inputlog ++ e)
    refine ⟨log', ?_⟩
    simp only [List.cons_append, setupInputAux, hgr]
    simpa using hlog

theorem setupInputAux_exhaust (c : CompCtx) :
    ∀ (gs : List (List AcceptItem)),
      (∀ g ∈ gs, ∃ r, evalGroup c g [] = .ok r ∧ r.1 = []) →
      ∀ (inputlog : List String),
        setupInputAux c gs inputlog
          = .error (.invalidInput (invalidMsg (inputlog ++ (gs.map (groupEntriesOf c)).flatten))) := by
  intro gs
  induction gs with
  | nil =>
    intro _ inputlog
    simp [setupInputAux]
  | cons g rest ih =>
    intro hall inputlog
    obtain ⟨r, hr, hfe⟩ := hall g (List.mem_cons_self g rest)
    obtain ⟨fe, en, ab⟩ := r
    replace hfe : fe = [] := hfe
    subst hfe
    have he : groupEntriesOf c g = en := by simp [groupEntriesOf, hr]
    simp only [setupInputAux, hr, List.length_nil, gt_iff_lt, Nat.lt_irrefl, if_false]
    rw [ih (fun g' hm => hall g' (List.mem_cons_of_mem _ hm)) (inputlog ++ en)]
    simp [he, List.append_assoc]

/-- C1 (amended): the resolver returns the feed of the first group whose
evaluation ends with a non-empty feed — whether or not that group ran all its
items to completion — and never evaluates or falls through to any later
group once such a group is found: the groups `gs2` after it are arbitrary and
do not influence the result. -/
theorem c1_first_nonempty (c : CompCtx) (gs1 gs2 : List (List AcceptItem))
    (g : List AcceptItem) (inputlog : List String) (feeds : FeedMap)
    (entries : List String) (aborted : Bool)
    (hpre : ∀ g' ∈ gs1, ∃ e a, evalGroup c g' [] = .ok ([], e, a))
    (hg : evalGroup c g [] = .ok (feeds, entries, aborted))
    (hne : feeds ≠ []) :
    setupInputAux c (gs1 ++ g :: gs2) inputlog = .ok feeds := by
  obtain ⟨log', hskip⟩ := setupInputAux_skip c gs1 hpre (g :: gs2) inputlog
  rw [hskip]
  simp only [setupInputAux, hg]
  simp [List.length_pos.mpr hne]

/-- Witness for C1's amended theorem: a non-matching first group, a matching
second group, and a third group that is never looked at. -/
theorem c1_first_nonempty_witness :
    setupInputAux ⟨"Main", "", "", none⟩
        ([[AcceptItem.inputFormat "n" false "s0"]] ++
          [AcceptItem.inputFormat "c" true "sC"] :: [[AcceptItem.inputFormat "d" true "sD"]]) []
      = .ok [("c", Feed.one "sC")] :=
  c1_first_nonempty ⟨"Main", "", "", none⟩ [[AcceptItem.inputFormat "n" false "s0"]]
    [[AcceptItem.inputFormat "d" true "sD"]] [AcceptItem.inputFormat "c" true "sC"] []
    [("c", Feed.one "sC")] [matchMsg "c"] false
    (fun g' hg' => by
      rw [List.mem_singleton] at hg'
      subst hg'
      exact ⟨_, _, rfl⟩)
    rfl (by decide)

/-- C1 counterexample to the claim as stated: the first group aborts at its
second item without completing, yet its partial feed is returned; the second
group — the first one that does complete with a non-empty feed — is not the
one whose feed the resolver returns. -/
theorem c1_counterexample :
    (evalGroup ⟨"Main", "", "", none⟩
        [AcceptItem.inputFormat "a" true "sA", AcceptItem.inputFormat "b" false "sB"] []
      = .ok ([("a", Feed.one "sA")],
             [matchMsg "a", noMatchMsg ⟨"Main", "", "", none⟩ "b"], true))
    ∧ (evalGroup ⟨"Main", "", "", none⟩ [AcceptItem.inputFormat "c" true "sC"] []
      = .ok ([("c", Feed.one "sC")], [matchMsg "c"], false))
    ∧ (setup_input ⟨"Main", "", "", none⟩
        [[AcceptItem.inputFormat "a" true "sA", AcceptItem.inputFormat "b" false "sB"],
         [AcceptItem.inputFormat "c" true "sC"]] []
      = .ok [("a", Feed.one "sA")])
    ∧ ([("a", Feed.one "sA")] : FeedMap) ≠ [("c", Feed.one "sC")] :=
  ⟨rfl, rfl, rfl, by decide⟩

/-- C4 (amended): within a group, items are evaluated in order until the
first failing item, which aborts the evaluation of the remaining items (the
items after it are never evaluated); but the group contributes the feed
accumulated before the failure, and the resolver moves on to the next group
only when that accumulated feed is empty — a non-empty partial feed is
returned as the result. -/
theorem c4_group_abort (c : CompCtx) (pre post : List AcceptItem) (bad : AcceptItem)
    (rest : List (List AcceptItem)) (inputlog : List String)
    (feeds : FeedMap) (entries : List String)
    (hpre : evalGroup c pre [] = .ok (feeds, entries, false))
    (hbad : itemAborts c bad = true) :
    (evalGroup c (pre ++ bad :: post) [] = .ok (feeds, entries ++ [abortEntry c bad], true))
    ∧ (feeds = [] →
        setupInputAux c ((pre ++ bad :: post) :: rest) inputlog
          = setupInputAux c rest (inputlog ++ (entries ++ [abortEntry c bad])))
    ∧ (feeds ≠ [] →
        setupInputAux c ((pre ++ bad :: post) :: rest) inputlog = .ok feeds) := by
  have hgrp : evalGroup c (pre ++ bad :: post) []
      = .ok (feeds, entries ++ [abortEntry c bad], true) := by
    rw [evalGroup_append_ok c (bad :: post) pre [] feeds entries hpre]
    rw [evalGroup_abort_head c bad post feeds hbad]
  refine ⟨hgrp, ?_, ?_⟩
  · intro hempty
    subst hempty
    simp [setupInputAux, hgrp]
  · intro hne
    simp [setupInputAux, hgrp, List.length_pos.mpr hne]

/-- Witness for C4's amended theorem: a group whose first item matches and
whose second item fails; the remaining item and the next group are never
reached, and the partial feed is returned. -/
theorem c4_group_abort_witness :
    (evalGroup ⟨"Main", "", "", none⟩
        ([AcceptItem.inputFormat "a3" true "sP"] ++
          AcceptItem.inputFormat "b3" false "sQ" :: [AcceptItem.inputFormat "z3" true "sR"]) []
      = .ok ([("a3", Feed.one "sP")],
             [matchMsg "a3"] ++
               [abortEntry ⟨"Main", "", "", none⟩ (AcceptItem.inputFormat "b3" false "sQ")], true))
    ∧ setupInputAux ⟨"Main", "", "", none⟩
        (([AcceptItem.inputFormat "a3" true "sP"] ++
            AcceptItem.inputFormat "b3" false "sQ" :: [AcceptItem.inputFormat "z3" true "sR"]) ::
          [[AcceptItem.inputFormat "c3" true "sS"]]) []
      = .ok [("a3", Feed.one "sP")] := by
  have h := c4_group_abort ⟨"Main", "", "", none⟩ [AcceptItem.inputFormat "a3" true "sP"]
    [AcceptItem.inputFormat "z3" true "sR"] (AcceptItem.inputFormat "b3" false "sQ")
    [[AcceptItem.inputFormat "c3" true "sS"]] [] [("a3", Feed.one "sP")] [matchMsg "a3"] rfl rfl
  exact ⟨h.1, h.2.2 (by decide)⟩

/-- C4 counterexample to the claim as stated: the group's second item fails,
yet the group contributes the feed of its first item and the resolver does
not move to the next group. -/
theorem c4_counterexample :
    (evalGroup ⟨"Main", "", "", none⟩
        [AcceptItem.inputFormat "a2" true "sX", AcceptItem.inputFormat "b2" false "sY"] []
      = .ok ([("a2", Feed.one "sX")],
             [matchMsg "a2", noMatchMsg ⟨"Main", "", "", none⟩ "b2"], true))
    ∧ (setup_input ⟨"Main", "", "", none⟩
        [[AcceptItem.inputFormat "a2" true "sX", AcceptItem.inputFormat "b2" false "sY"],
         [AcceptItem.inputFormat "c2" true "sZ"]] []
      = .ok [("a2", Feed.one "sX")])
    ∧ ([("a2", Feed.one "sX")] : FeedMap) ≠ [] :=
  ⟨rfl, rfl, by decide⟩

/-- C5 (amended): an `InvalidInput` raised by the recursive resolution of a
referenced sub-component aborts the current group with a trace entry; the
next group is tried provided the aborted group's feed is still empty (if
earlier items of the group already contributed, the partial feed is returned
instead, per C4); and when every group's run ends with an empty feed, the
resolver raises `InvalidInput` carrying the accumulated trace of all
rejections. -/
theorem c5_backtracking (c : CompCtx) (name m : String)
    (pre post : List AcceptItem) (rest gs : List (List AcceptItem))
    (inputlog : List String) (feeds : FeedMap) (entries : List String)
    (hpre : evalGroup c pre [] = .ok (feeds, entries, false)) :
    (evalGroup c (pre ++ AcceptItem.inputComponent name (.error (.invalidInput m)) :: post) []
        = .ok (feeds, entries ++ [triedMsg name m], true))
    ∧ (feeds = [] →
        setupInputAux c
            ((pre ++ AcceptItem.inputComponent name (.error (.invalidInput m)) :: post) :: rest)
            inputlog
          = setupInputAux c rest (inputlog ++ (entries ++ [triedMsg name m])))
    ∧ ((∀ g ∈ gs, ∃ r, evalGroup c g [] = .ok r ∧ r.1 = []) →
        setupInputAux c gs inputlog
          = .error (.invalidInput (invalidMsg (inputlog ++ (gs.map (groupEntriesOf c)).flatten)))) := by
  have hgrp : evalGroup c
      (pre ++ AcceptItem.inputComponent name (.error (.invalidInput m)) :: post) []
      = .ok (feeds, entries ++ [triedMsg name m], true) := by
    rw [evalGroup_append_ok c _ pre [] feeds entries hpre]
    rw [evalGroup_abort_head c (AcceptItem.inputComponent name (.error (.invalidInput m)))
      post feeds rfl]
    rfl
  refine ⟨hgrp, ?_, ?_⟩
  · intro hempty
    subst hempty
    simp [setupInputAux, hgrp]
  · intro hall
    exact setupInputAux_exhaust c gs hall inputlog

/-- Witness for C5's amended theorem: a lone failing sub-component aborts its
(empty-feed) group, and exhausting that single group raises `InvalidInput`
with the accumulated trace. -/
theorem c5_backtracking_witness :
    (evalGroup ⟨"Main", "", "", none⟩
        ([] ++ AcceptItem.inputComponent "Tok" (.error (.invalidInput "nope")) :: []) []
      = .ok ([], [] ++ [triedMsg "Tok" "nope"], true))
    ∧ setupInputAux ⟨"Main", "", "", none⟩
        [[AcceptItem.inputComponent "Tok" (.error (.invalidInput "nope"))]] []
      = .error (.invalidInput (invalidMsg ([] ++
          ([[AcceptItem.inputComponent "Tok" (.error (.invalidInput "nope"))]].map
            (groupEntriesOf ⟨"Main", "", "", none⟩)).flatten))) := by
  have h := c5_backtracking ⟨"Main", "", "", none⟩ "Tok" "nope" [] [] []
    [[AcceptItem.inputComponent "Tok" (.error (.invalidInput "nope"))]] [] [] [] rfl
  refine ⟨h.1, h.2.2 ?_⟩
  intro g hg
  rw [List.mem_singleton] at hg
  subst hg
  exact ⟨([], [triedMsg "Tok" "nope"], true), rfl, rfl⟩

/-- C5 counterexample to the claim as stated: the sub-component's
`InvalidInput` aborts a group whose first item already fed the group; the
next group is not tried — the partial feed is returned instead. -/
theorem c5_counterexample :
    (evalGroup ⟨"Main", "", "", none⟩
        [AcceptItem.inputFormat "p" true "s1",
         AcceptItem.inputComponent "Sub" (.error (.invalidInput "no entry"))] []
      = .ok ([("p", Feed.one "s1")], [matchMsg "p", triedMsg "Sub" "no entry"], true))
    ∧ (setup_input ⟨"Main", "", "", none⟩
        [[AcceptItem.inputFormat "p" true "s1",
          AcceptItem.inputComponent "Sub" (.error (.invalidInput "no entry"))],
         [AcceptItem.inputFormat "q" true "s2"]] []
      = .ok [("p", Feed.one "s1")])
    ∧ ([("p", Feed.one "s1")] : FeedMap) ≠ [("q", Feed.one "s2")] :=
  ⟨rfl, rfl, by decide⟩

theorem pyTake_out (format_id : String) : pyTake 4 ("out_" ++ format_id) = "out_" := by
  cases format_id
  rfl

theorem pyDrop_out (format_id : String) : pyDrop 4 ("out_" ++ format_id) = format_id := by
  cases format_id
  rfl

/-- C6: in the `SlotFeed` built for one group, the first producer recorded
for a format-id is stored as a scalar binding; a second resolved item of the
same group producing the same format-id promotes the binding to a list, so
two sibling producers of a format-id yield a 2-element sequence preserving
encounter order (engine.py lines 250-263). -/
theorem c6_fanin (c : CompCtx) (n1 n2 format_id s1 s2 : String) :
    (mergeTask [] [("out_" ++ format_id, s1)] = [(format_id, Feed.one s1)])
    ∧ (mergeTask [(format_id, Feed.one s1)] [("out_" ++ format_id, s2)]
        = [(format_id, Feed.many [s1, s2])])
    ∧ (evalGroup c
        [AcceptItem.inputComponent n1 (.ok [[("out_" ++ format_id, s1)]]),
         AcceptItem.inputComponent n2 (.ok [[("out_" ++ format_id, s2)]])] []
      = .ok ([(format_id, Feed.many [s1, s2])], [], false)) := by
  have h1 : mergeTask [] [("out_" ++ format_id, s1)] = [(format_id, Feed.one s1)] := by
    simp [mergeTask, mergeOutAttr, pyTake_out, pyDrop_out, dictGet, dictSet]
  have h2 : mergeTask [(format_id, Feed.one s1)] [("out_" ++ format_id, s2)]
      = [(format_id, Feed.many [s1, s2])] := by
    simp [mergeTask, mergeOutAttr, pyTake_out, pyDrop_out, dictGet, dictSet]
  refine ⟨h1, h2, ?_⟩
  simp [evalGroup, evalItem, mergeTasks, h1, h2]

theorem dictGet_dictSet_self {α : Type} (k : String) (v : α) :
    ∀ l : List (String × α), dictGet k (dictSet k v l) = some v := by
  intro l
  induction l with
  | nil => simp [dictGet, dictSet]
  | cons p rest ih =>
    obtain ⟨k', v'⟩ := p
    cases h : (k' == k) with
    | true => simp [dictGet, dictSet, h]
    | false => simp [dictGet, dictSet, h, ih]

theorem dictGet_dictSet_ne {α : Type} (k k' : String) (v : α) (h : (k' == k) = false) :
    ∀ l : List (String × α), dictGet k (dictSet k' v l) = dictGet k l := by
  intro l
  induction l with
  | nil => simp [dictGet, dictSet, h]
  | cons p rest ih =>
    obtain ⟨k2, v2⟩ := p
    cases h2 : (k2 == k') with
    | true =>
      have hk2 : k2 = k' := eq_of_beq h2
      subst hk2
      simp [dictGet, dictSet, h2, h]
    | false =>
      simp only [dictSet, h2, Bool.false_eq_true, if_false]
      cases h3 : (k2 == k) with
      | true => simp [dictGet, h3]
      | false => simp [dictGet, h3, ih]

/-- The loop body of the parameter transfer in `InputComponent.__init__`. -/
def propagateStep (parent : String → Option String)
    (kwargs : List (String × String)) (key : String) : List (String × String) :=
  match dictGet key kwargs with
  | some _ => kwargs
  | none =>
    match parent key with
    | some v => dictSet key v kwargs
    | none => kwargs

theorem propagateStep_preserves (parent : String → Option String)
    (k : String) (v : String) :
    ∀ (l : List String) (acc : List (String × String)), dictGet k acc = some v →
      dictGet k (List.foldl (propagateStep parent) acc l) = some v := by
  intro l
  induction l with
  | nil =>
    intro acc h
    exact h
  | cons a rest ih =>
    intro acc h
    simp only [List.foldl_cons]
    apply ih
    unfold propagateStep
    cases ha : dictGet a acc with
    | some w => exact h
    | none =>
      cases hp : parent a with
      | none => exact h
      | some w =>
        have hne : (a == k) = false := by
          cases hak : (a == k) with
          | false => rfl
          | true =>
            have : a = k := eq_of_beq hak
            subst this
            rw [ha] at h
            exact Option.noConfusion h
        rw [dictGet_dictSet_ne k a w hne acc]
        exact h

theorem propagateStep_none_keep (parent : String → Option String) (k : String)
    (hp : parent k = none) :
    ∀ (l : List String) (acc : List (String × String)), dictGet k acc = none →
      dictGet k (List.foldl (propagateStep parent) acc l) = none := by
  intro l
  induction l with
  | nil =>
    intro acc h
    exact h
  | cons a rest ih =>
    intro acc h
    simp only [List.foldl_cons]
    apply ih
    unfold propagateStep
    cases ha : dictGet a acc with
    | some w => exact h
    | none =>
      cases hpa : parent a with
      | none => exact h
      | some w =>
        have hne : (a == k) = false := by
          cases hak : (a == k) with
          | false => rfl
          | true =>
            have : a = k := eq_of_beq hak
            subst this
            rw [hpa] at hp
            exact Option.noConfusion hp
        rw [dictGet_dictSet_ne k a w hne acc]
        exact h

theorem propagate_fold_mem (parent : String → Option String) (k : String) :
    ∀ (l : List String) (acc : List (String × String)),
      k ∈ l → dictGet k acc = none →
      dictGet k (List.foldl (propagateStep parent) acc l) = parent k := by
  intro l
  induction l with
  | nil =>
    intro acc hmem _
    exact absurd hmem (List.not_mem_nil k)
  | cons a rest ih =>
    intro acc hmem hacc
    simp only [List.foldl_cons]
    by_cases hak : a = k
    · subst hak
      have hstep : propagateStep parent acc a =
          match parent a with
          | some w => dictSet a w acc
          | none => acc := by
        unfold propagateStep
        rw [hacc]
      cases hp : parent a with
      | some v =>
        have hrw : propagateStep parent acc a = dictSet a v acc := by rw [hstep, hp]
        rw [hrw]
        exact propagateStep_preserves parent a v rest _ (dictGet_dictSet_self a v acc)
      | none =>
        have hrw : propagateStep parent acc a = acc := by rw [hstep, hp]
        rw [hrw]
        exact propagateStep_none_keep parent a hp rest acc hacc
    · have hmem' : k ∈ rest := by
        rcases List.mem_cons.mp hmem with h | h
        · exact absurd h.symm hak
        · exact h
      apply ih _ hmem'
      unfold propagateStep
      cases ha : dictGet a acc with
      | some w => exact hacc
      | none =>
        cases hpa : parent a with
        | none => exact hacc
        | some w =>
          have hne : (a == k) = false := by
            cases h2 : (a == k) with
            | false => rfl
            | true => exact absurd (eq_of_beq h2) hak
          rw [dictGet_dictSet_ne k a w hne acc]
          exact hacc

/-- C7: for every parameter name declared by the child, the bound value is
the explicit override when one is supplied, else the parent's value when the
parent exposes one, else nothing; and the propagation is a pure function of
the parent state, the declared parameters and the overrides (identical
inputs yield identical bound parameters). -/
theorem c7_param_propagation (childParams : List String)
    (overrides : List (String × String)) (parent : String → Option String) :
    (∀ key ∈ childParams,
      dictGet key (propagateParams childParams overrides parent)
        = match dictGet key overrides with
          | some v => some v
          | none => parent key)
    ∧ (∀ parent2 : String → Option String, (∀ k, parent k = parent2 k) →
        propagateParams childParams overrides parent
          = propagateParams childParams overrides parent2) := by
  constructor
  · intro key hkey
    have hfold : propagateParams childParams overrides parent
        = List.foldl (propagateStep parent) overrides childParams := rfl
    rw [hfold]
    cases hov : dictGet key overrides with
    | some v =>
      simp only
      exact propagateStep_preserves parent key v childParams overrides hov
    | none =>
      simp only
      exact propagate_fold_mem parent key childParams overrides hkey hov
  · intro parent2 hsame
    have : parent = parent2 := funext hsame
    rw [this]

/-- Witness for C7: child declares `lang` and `skip`; `skip` is explicitly
overridden, `lang` is copied from the parent. -/
theorem c7_param_propagation_witness :
    (dictGet "lang" (propagateParams ["lang", "skip"] [("skip", "1")]
        (fun k => if k == "lang" then some "nl" else none))
      = some "nl")
    ∧ (dictGet "skip" (propagateParams ["lang", "skip"] [("skip", "1")]
        (fun k => if k == "lang" then some "nl" else none))
      = some "1") :=
  ⟨(c7_param_propagation ["lang", "skip"] [("skip", "1")]
      (fun k => if k == "lang" then some "nl" else none)).1 "lang" (by decide),
   (c7_param_propagation ["lang", "skip"] [("skip", "1")]
      (fun k => if k == "lang" then some "nl" else none)).1 "skip" (by decide)⟩

theorem self_ne_append (a b : String) (hb : b.length ≠ 0) : a ≠ a ++ b := by
  intro heq
  have h := congrArg String.length heq
  rw [String.length_append] at h
  omega

/-- C8: the empty-output-directory check of `Task.on_success` is dead code —
the attribute `self.__output_dirs` it iterates over (engine.py line 328) is
never assigned anywhere (only `self.__output_dir` is, line 310-312), so the
`AttributeError` it raises is swallowed by the blanket
`except AttributeError: pass` and the handler returns success with the
filesystem untouched: no rename to `.failed`, no `EmptyDirectory`, even when
a registered output directory is empty. -/
theorem c8_success_check_dead (listdir : String → List String) (t : TaskState)
    (fs : List String) (h : t.output_dirs = none) :
    on_success listdir t fs = .ok fs
    ∧ initTask.output_dirs = none
    ∧ (∀ (fs' : List String) (d : String),
        ((setup_output_dir t fs' d).1).output_dirs = none) := by
  refine ⟨?_, rfl, ?_⟩
  · cases ht : t.output_dir with
    | none => simp [on_success, ht]
    | some dirs => simp [on_success, ht, h]
  · intro fs' d
    cases ht : t.output_dir with
    | none => simp [setup_output_dir, ht, h]
    | some l => simp [setup_output_dir, ht, h]

/-- Witness for C8 at the failing input of scenario D: the task registered
output directory `out`, which exists and is empty; `on_success` neither
renames it nor raises `EmptyDirectory`. -/
theorem c8_success_check_dead_witness :
    on_success (fun _ => []) ⟨some ["out"], none⟩ ["out"] = .ok ["out"] :=
  (c8_success_check_dead (fun _ => []) ⟨some ["out"], none⟩ ["out"] rfl).1

/-- C9: the failure-marking rename of `Task.on_failure` is idempotent — one
application renames the registered directory `d` to `d + ".failed"`, and a
second application is the identity, leaving exactly one directory bearing
exactly one `.failed` suffix and nothing named `d + ".failed.failed"`. -/
theorem c9_failure_idempotent (t : TaskState) (fs : List String) (d : String)
    (ht : t.output_dir = some [d]) (hd : d ∈ fs)
    (hdd : ((d ++ ".failed") ++ ".failed") ∉ fs) :
    (on_failure t fs = fs.filter (fun p => !(p == d)) ++ [d ++ ".failed"])
    ∧ on_failure t (on_failure t fs) = on_failure t fs
    ∧ d ∉ on_failure t fs
    ∧ (d ++ ".failed") ∈ on_failure t fs
    ∧ ((d ++ ".failed") ++ ".failed") ∉ on_failure t fs := by
  have h1 : on_failure t fs = fs.filter (fun p => !(p == d)) ++ [d ++ ".failed"] := by
    simp [on_failure, ht, renameFS, hd, List.foldl_cons, List.foldl_nil]
  have hne1 : d ≠ d ++ ".failed" := self_ne_append d ".failed" (by decide)
  have hmem : d ∉ on_failure t fs := by
    rw [h1]
    intro hmem
    rcases List.mem_append.mp hmem with hm | hm
    · have hp := (List.mem_filter.mp hm).2
      simp at hp
    · rw [List.mem_singleton] at hm
      exact hne1 hm
  refine ⟨h1, ?_, hmem, ?_, ?_⟩
  · set fs1 := on_failure t fs with hfs1
    simp [on_failure, ht, List.foldl_cons, List.foldl_nil, hmem]
  · rw [h1]
    exact List.mem_append.mpr (Or.inr (List.mem_singleton.mpr rfl))
  · rw [h1]
    intro hmem2
    rcases List.mem_append.mp hmem2 with hm | hm
    · exact hdd (List.mem_filter.mp hm).1
    · rw [List.mem_singleton] at hm
      exact (self_ne_append (d ++ ".failed") ".failed" (by decide)) hm.symm

/-- Witness for C9: directory `out` registered and present; after two runs of
the failure handler only `out.failed` exists. -/
theorem c9_failure_idempotent_witness :
    on_failure ⟨some ["out"], none⟩ (on_failure ⟨some ["out"], none⟩ ["out"])
        = on_failure ⟨some ["out"], none⟩ ["out"]
    ∧ "out" ∉ on_failure ⟨some ["out"], none⟩ ["out"]
    ∧ ("out" ++ ".failed") ∈ on_failure ⟨some ["out"], none⟩ ["out"]
    ∧ (("out" ++ ".failed") ++ ".failed") ∉ on_failure ⟨some ["out"], none⟩ ["out"] := by
  have h := c9_failure_idempotent ⟨some ["out"], none⟩ ["out"] "out" rfl
    (by decide) (by decide)
  exact ⟨h.2.1, h.2.2.1, h.2.2.2.1, h.2.2.2.2⟩

/-- C10: the injected acceptance list is shared process-wide, not per
component — for two `WorkflowComponent` subclasses A and B that do not
themselves define an `accepted_components` attribute, `A.accept(C)` appends
C to the single class-level list inherited from `WorkflowComponent`
(A still owns no attribute of its own afterwards), so C subsequently appears
among the acceptance alternatives looked up for B as well as for A, and B's
resolution tries C's group. -/
theorem c10_shared_accept (tbl : ClassTable) (child : String) (c : CompCtx)
    (own : List (List AcceptItem))
    (results : String → Except PyErr (List (List (String × String))))
    (ha : tbl.aOwn = none) (hb : tbl.bOwn = none) :
    (child ∉ tbl.wcList → (acceptOn tbl .subA child).wcList = tbl.wcList ++ [child])
    ∧ (acceptOn tbl .subA child).aOwn = none
    ∧ child ∈ lookupAccepted (acceptOn tbl .subA child) .subA
    ∧ child ∈ lookupAccepted (acceptOn tbl .subA child) .subB
    ∧ (tbl.wcList = [] →
        resolveClass (acceptOn tbl .subA child) .subB c own results
          = setupInputAux c
              (own ++ [[AcceptItem.inputComponent child (results child)]]) (initLog c)) := by
  have hkey : child ∈ (acceptOn tbl .subA child).wcList
      ∧ (acceptOn tbl .subA child).aOwn = none
      ∧ (acceptOn tbl .subA child).bOwn = none := by
    by_cases hmem : child ∈ tbl.wcList
    · simp [acceptOn, lookupAccepted, ha, hmem, hb]
    · simp [acceptOn, lookupAccepted, ha, hmem, hb]
  obtain ⟨hwc, haOwn, hbOwn⟩ := hkey
  refine ⟨?_, haOwn, ?_, ?_, ?_⟩
  · intro hnot
    simp [acceptOn, lookupAccepted, ha, hnot]
  · simp only [lookupAccepted, haOwn, Option.getD_none]
    exact hwc
  · simp only [lookupAccepted, hbOwn, Option.getD_none]
    exact hwc
  · intro hempty
    have hlist : lookupAccepted (acceptOn tbl .subA child) .subB = [child] := by
      simp only [lookupAccepted, hbOwn, Option.getD_none]
      simp [acceptOn, lookupAccepted, ha, hempty]
    simp [resolveClass, hlist, injectedGroups]

/-- Witness for C10: starting from an empty shared list, `A.accept(C)` makes
C visible to B's lookup, and B's resolution evaluates C's injected group. -/
theorem c10_shared_accept_witness :
    "C" ∈ lookupAccepted (acceptOn ⟨[], none, none⟩ .subA "C") .subB
    ∧ resolveClass (acceptOn ⟨[], none, none⟩ .subA "C") .subB ⟨"Main", "", "", none⟩ []
        (fun _ => .error (.invalidInput "x"))
      = setupInputAux ⟨"Main", "", "", none⟩
          ([] ++ [[AcceptItem.inputComponent "C"
              ((fun _ => Except.error (PyErr.invalidInput "x")) "C")]])
          (initLog ⟨"Main", "", "", none⟩) := by
  have h := c10_shared_accept ⟨[], none, none⟩ "C" ⟨"Main", "", "", none⟩ []
    (fun _ => Except.error (PyErr.invalidInput "x")) rfl rfl
  exact ⟨h.2.2.2.1, h.2.2.2.2 rfl⟩

end LuigiNLP
